import Mathlib

/-!
Verification development for the PodcastAI API server (`api_server.py`).

The embedding models text as lists of characters (`Str`), bytes as lists of
naturals, machine integers as `Int`, and every external capability call
(Gemini text generation, streaming generation, transcription, speech
synthesis, randomness) as an explicit oracle argument, so that each endpoint
becomes a pure, executable Lean function of its inputs and oracles.
-/

set_option maxRecDepth 20000

/-- Text is modelled as a list of characters (Python `str`). -/
abbrev Str := List Char

/-- Coerce a Lean string literal into the `Str` representation. -/
def str (s : String) : Str := s.toList

/-- Python `str.isspace` on the whitespace characters recognised by
`str.split()` / `str.strip()` without arguments. -/
def pyIsSpace (c : Char) : Bool :=
  c = ' ' || c = '\t' || c = '\n' || c = '\r' || c = '\x0b' || c = '\x0c'

/-- Python `str.strip()`: drop leading and trailing whitespace. -/
def pyStrip (s : Str) : Str :=
  ((s.dropWhile pyIsSpace).reverse.dropWhile pyIsSpace).reverse

/-- Worker for `pyWords`: scans the text left to right, `acc` holding the
characters of the word currently being read (reversed). -/
def wordsAux : List Char → List Char → List Str
  | [], acc => if acc = [] then [] else [acc.reverse]
  | c :: rest, acc =>
    if pyIsSpace c then
      if acc = [] then wordsAux rest [] else acc.reverse :: wordsAux rest []
    else
      wordsAux rest (c :: acc)

/-- Python `str.split()` with no argument: the maximal runs of
non-whitespace characters, in order (empty runs discarded). -/
def pyWords (s : Str) : List Str := wordsAux s []

/-- Python `' '.join(words)`. -/
def joinWords : List Str → Str
  | [] => []
  | [w] => w
  | w :: w' :: ws => w ++ ' ' :: joinWords (w' :: ws)

/-- Python `int(s)` on a decimal string: optional surrounding whitespace,
an optional sign, then a non-empty digit run; `none` models `ValueError`.
(Note in particular that `"0"` and negative numerals parse successfully.) -/
def pyParseInt (s : Str) : Option Int :=
  let t := pyStrip s
  let core : Option (Bool × Str) :=
    match t with
    | '-' :: rest => some (true, rest)
    | '+' :: rest => some (false, rest)
    | _ => some (false, t)
  match core with
  | some (neg, digits) =>
    if digits ≠ [] ∧ digits.all Char.isDigit then
      let n : Nat := digits.foldl (fun a c => a * 10 + (c.toNat - 48)) 0
      some (if neg then -(n : Int) else (n : Int))
    else none
  | none => none

/-- Python `s.split(sep)` for a one-character separator `sep`
(keeps empty fields, unlike `split()` with no argument). -/
def splitChar (sep : Char) : Str → List Str
  | [] => [[]]
  | c :: rest =>
    let r := splitChar sep rest
    if c = sep then [] :: r
    else
      match r with
      | [] => [[c]]
      | f :: fs => (c :: f) :: fs

/-- Boolean subsequence test: `isSubseqOf l m` holds when `l` is obtained
from `m` by deleting elements, keeping order. -/
def isSubseqOf [DecidableEq α] : List α → List α → Bool
  | [], _ => true
  | _ :: _, [] => false
  | a :: as, b :: bs => if a = b then isSubseqOf as bs else isSubseqOf (a :: as) bs

-- Basic facts about the helpers, used throughout.

theorem isSubseqOf_nil [DecidableEq α] (l : List α) : isSubseqOf ([] : List α) l = true := by
  cases l <;> rfl

theorem isSubseqOf_cons_cons [DecidableEq α] (a : α) (as bs : List α) :
    isSubseqOf (a :: as) (a :: bs) = isSubseqOf as bs := by
  simp [isSubseqOf]

theorem wordsAux_word (w rest acc : List Char) (hw : ∀ c ∈ w, pyIsSpace c = false) :
    wordsAux (w ++ rest) acc = wordsAux rest (w.reverse ++ acc) := by
  induction w generalizing acc with
  | nil => simp
  | cons c w' ih =>
    have hc : pyIsSpace c = false := hw c (by simp)
    simp only [List.cons_append, wordsAux, hc, Bool.false_eq_true, if_false]
    show wordsAux (w' ++ rest) (c :: acc) = wordsAux rest ((c :: w').reverse ++ acc)
    rw [ih (c :: acc) (fun d hd => hw d (List.mem_cons_of_mem c hd))]
    simp

theorem wordsAux_all_words (l : List Char) (acc : List Char)
    (hacc : ∀ c ∈ acc, pyIsSpace c = false) :
    ∀ w ∈ wordsAux l acc, w ≠ [] ∧ ∀ c ∈ w, pyIsSpace c = false := by
  induction l generalizing acc with
  | nil =>
    intro w hw
    simp only [wordsAux] at hw
    split at hw
    · simp at hw
    · next hne =>
      simp only [List.mem_singleton] at hw
      subst hw
      refine ⟨by simpa using hne, ?_⟩
      intro c hc
      exact hacc c (by simpa using hc)
  | cons c rest ih =>
    intro w hw
    simp only [wordsAux] at hw
    by_cases hc : pyIsSpace c = true
    · rw [if_pos hc] at hw
      split at hw
      · exact ih [] (by simp) w hw
      · next hne =>
        rcases List.mem_cons.mp hw with h | h
        · subst h
          refine ⟨by simpa using hne, ?_⟩
          intro d hd
          exact hacc d (by simpa using hd)
        · exact ih [] (by simp) w h
    · rw [if_neg hc] at hw
      refine ih (c :: acc) ?_ w hw
      intro d hd
      rcases List.mem_cons.mp hd with h | h
      · subst h; simpa using hc
      · exact hacc d h

theorem pyWords_all_words (s : Str) :
    ∀ w ∈ pyWords s, w ≠ [] ∧ ∀ c ∈ w, pyIsSpace c = false :=
  wordsAux_all_words s [] (by simp)

theorem pyWords_joinWords (ws : List Str)
    (h : ∀ w ∈ ws, w ≠ [] ∧ ∀ c ∈ w, pyIsSpace c = false) :
    pyWords (joinWords ws) = ws := by
  induction ws with
  | nil => rfl
  | cons w ws ih =>
    cases ws with
    | nil =>
      obtain ⟨hne, hns⟩ := h w (by simp)
      show wordsAux (joinWords [w]) [] = [w]
      have : joinWords [w] = w ++ [] := by simp [joinWords]
      rw [this, wordsAux_word w [] [] hns]
      simp only [wordsAux, List.append_nil]
      rw [if_neg (by simpa using hne)]
      simp
    | cons w' ws' =>
      obtain ⟨hne, hns⟩ := h w (by simp)
      show wordsAux (joinWords (w :: w' :: ws')) [] = w :: w' :: ws'
      have hj : joinWords (w :: w' :: ws') = w ++ ' ' :: joinWords (w' :: ws') := rfl
      rw [hj, wordsAux_word w _ [] hns]
      simp only [List.append_nil, wordsAux]
      rw [if_pos (by decide : pyIsSpace ' ' = true)]
      rw [if_neg (by simpa using hne)]
      simp only [List.reverse_reverse]
      exact congrArg (List.cons w) (ih (fun u hu => h u (by simp [hu])))

-- ## Data model (`api_server.py`)

/-- Job lifecycle status strings (`jobs[job_id]["status"]`). -/
inductive Status
  | pending
  | transcribing
  | improving
  | streaming
  | done
  | error
deriving DecidableEq, Repr

/-- Server-sent events emitted by the stream endpoint
(`event: meta` / `chunk` / `done` / `error` frames, lines 407-465). -/
inductive Event
  | meta (improved_prompt : Str)
  | chunk (delta : Option Str) (full : Str) (truncated : Bool)
  | done (title : Str) (full : Str) (truncated : Bool)
  | error (message : Str)
deriving DecidableEq, Repr

/-- One step of the upstream streaming-generation iterator: either the next
chunk text (`chunk.text`, possibly empty) or an exception raised while
pulling the next item. -/
inductive StreamItem
  | delta (text : Str)
  | raise (message : Str)
deriving DecidableEq, Repr

/-- Outcome of a non-streaming `generate_content` call: the `.text` of the
response, or an exception. -/
inductive CallResult
  | ok (text : Str)
  | fail (message : Str)
deriving DecidableEq, Repr

/-- The in-memory job record (`jobs[job_id]`, a Python dict).  Keys the code
only sets in some circumstances are `Option`/defaulted fields; `truncated`
models `jobs[job_id].get("truncated", False)`. -/
structure Job where
  status : Status := .pending
  transcript : Str := []
  title : Option Str := none
  use_internet : Bool := false
  language : Option Str := none
  raw_input : Str := []
  audio_bytes : Option (List Nat) := none
  audio_mime : Option Str := none
  audio_error : Option Str := none
  category : Str := []
  theme : Option Str := none
  geo_location : Option Str := none
  speakers : Int := 1
  voices : List Str := []
  voice_names : List Str := []
  transcribed_audio : Option Str := none
  audio_transcription_error : Option Str := none
  truncated : Bool := false
  saved : Bool := false
  saved_at : Option Str := none
  audio_wav : Option (List Nat) := none
  audio_source : Option Str := none
deriving DecidableEq, Repr

/-- A record with every field at its creation-time default. -/
def defaultJob : Job := {}

-- ## Voice catalog (lines 522-544)

/-- `FEMALE_VOICE_POOL = list(FEMALE_VOICE_DESCRIPTORS.keys())`. -/
def FEMALE_VOICE_POOL : List Str :=
  [str "Zephyr", str "Kore", str "Leda", str "Aoede", str "Callirrhoe",
   str "Autonoe", str "Despina", str "Erinome", str "Laomedeia", str "Achernar",
   str "Pulcherrima", str "Vindemiatrix", str "Sulafat", str "Gacrux"]

/-- `MALE_VOICE_POOL = list(MALE_VOICE_DESCRIPTORS.keys())`. -/
def MALE_VOICE_POOL : List Str :=
  [str "Puck", str "Charon", str "Fenrir", str "Orus", str "Enceladus",
   str "Iapetus", str "Algenib", str "Rasalgethi", str "Alnilam", str "Schedar",
   str "Zubenelgenubi", str "Sadaltager", str "Umbriel", str "Achird", str "Sadachbia"]

/-- `_pick_voice` (lines 538-544).  `random.choice(pool)` is modelled by an
externally supplied natural `r` reduced modulo the pool size; both pools are
non-empty constants, so the `and`-guards and the `or ["Zephyr"]` fallback
collapse exactly as in the source. -/
def pick_voice (gender : Str) (r : Nat) : Str :=
  if gender = str "F" then FEMALE_VOICE_POOL.getD (r % FEMALE_VOICE_POOL.length) (str "Zephyr")
  else if gender = str "M" then MALE_VOICE_POOL.getD (r % MALE_VOICE_POOL.length) (str "Zephyr")
  else (FEMALE_VOICE_POOL ++ MALE_VOICE_POOL).getD
    (r % (FEMALE_VOICE_POOL ++ MALE_VOICE_POOL).length) (str "Zephyr")

-- ## Job creation: `start_generation` (`POST /api/generate`, lines 123-200)

/-- `prompt_mode`, constrained by the form regex `^(text|audio)$`. -/
inductive Mode
  | text
  | audio
deriving DecidableEq, Repr

/-- The uploaded file, when present: the result of `await audio_file.read()`
(`none` models a read failure) and its `content_type`. -/
structure AudioUpload where
  readResult : Option (List Nat)
  content_type : Option Str
deriving DecidableEq, Repr

/-- The form fields of the create-job request. -/
structure GenRequest where
  prompt_mode : Mode
  text : Str := []
  use_internet : Bool := false
  speakers : Str := str "1"
  voices : Str := []
  category : Str := str "generated"
  theme : Str := []
  geo_location : Str := []
  audio_file : Option AudioUpload := none
  language : Str := []
deriving DecidableEq, Repr

/-- Category normalisation (lines 164-167). -/
def normCategory (c : Str) : Str :=
  if c = str "generated" ∨ c = str "localisation" then c else str "generated"

/-- Theme normalisation for localisation jobs (lines 172-175):
`theme.lower().strip()`, defaulting to `"culture"` outside the allowed set. -/
def normTheme (t : Str) : Str :=
  let n := pyStrip (t.map Char.toLower)
  if n = str "culture" ∨ n = str "history" ∨ n = str "music" ∨ n = str "sport"
  then n else str "culture"

/-- The deterministic seed prompt synthesised for a localisation job created
with blank text (lines 180-184). -/
def locSeed (theme geo : Str) : Str :=
  str "Localisation seed: Generate an engaging educational monologue about the "
    ++ theme ++ str " aspects of " ++ geo
    ++ str ". Include authentic cultural details and keep tone informative and lively."

/-- The gender list parsed from the `voices` form field (line 191):
`[v.strip().upper() for v in voices.split(',') if v.strip()]`. -/
def parseVoices (voices : Str) : List Str :=
  (splitChar ',' voices).filterMap fun v =>
    let s := pyStrip v
    if s = [] then none else some (s.map Char.toUpper)

/-- The `speakers` string whose parse is stored (line 171 resets it to `"1"`
for localisation jobs before the parse at lines 187-190). -/
def effectiveSpeakers (req : GenRequest) : Str :=
  if normCategory req.category = str "localisation" then str "1" else req.speakers

/-- Builds the job record stored by `start_generation` once validation has
passed (lines 143-199).  `rnd k` supplies the random index consumed by the
k-th `_pick_voice` draw. -/
def buildJob (req : GenRequest) (rnd : Nat → Nat) : Job :=
  let j0 : Job :=
    { status := .pending, transcript := [], title := none,
      use_internet := req.use_internet }
  let lang := pyStrip req.language
  let j1 := if lang ≠ [] then { j0 with language := some (lang.map Char.toLower) } else j0
  let j2 :=
    match req.prompt_mode with
    | .text => { j1 with raw_input := if pyStrip req.text ≠ [] then req.text else [] }
    | .audio =>
      let ja := { j1 with raw_input := str "<audio>" }
      match req.audio_file with
      | some af =>
        match af.readResult with
        | some bs =>
          { ja with audio_bytes := some bs,
                    audio_mime := some (match af.content_type with
                      | some m => if m ≠ [] then m else str "audio/webm"
                      | none => str "audio/webm") }
        | none => { ja with audio_error := some (str "Failed to read audio") }
      | none => ja
  let cat := normCategory req.category
  let j3 := { j2 with category := cat }
  let j4 :=
    if cat = str "localisation" then
      let jt := { j3 with theme := some (normTheme req.theme),
                          geo_location := some (pyStrip req.geo_location) }
      if req.prompt_mode = .text ∧ pyStrip req.text = [] then
        { jt with raw_input := locSeed (normTheme req.theme) (pyStrip req.geo_location) }
      else jt
    else j3
  let spk : Int := (pyParseInt (effectiveSpeakers req)).getD 1
  let voices_list := parseVoices req.voices
  let voice_names := (List.range spk.toNat).map fun idx =>
    pick_voice ((voices_list.getD idx (str "M"))) (rnd idx)
  { j4 with speakers := spk, voices := voices_list, voice_names := voice_names }

/-- `start_generation` (`POST /api/generate`): the validation at lines
136-141 (both failures are HTTP 400 `JSONResponse`s), then the stored job.
The nested source condition "text mode and blank text, and then
`category != 'localisation' or not geo_location.strip()`" is written as one
flattened conjunction. -/
def start_generation (req : GenRequest) (rnd : Nat → Nat) : Except Str Job :=
  if req.prompt_mode = .text ∧ pyStrip req.text = [] ∧
      ¬(req.category = str "localisation" ∧ pyStrip req.geo_location ≠ []) then
    .error (str "Text prompt empty")
  else if req.prompt_mode = .audio ∧ req.audio_file = none then
    .error (str "Audio file missing")
  else
    .ok (buildJob req rnd)

/-- Projection used to state facts about successful creations. -/
def okJob : Except Str Job → Option Job
  | .ok j => some j
  | .error _ => none

/-- `isErr e` holds exactly when creation was rejected with a 400. -/
def isErr : Except Str Job → Bool
  | .error _ => true
  | .ok _ => false

-- ## Generation duration controls (lines 64-68)

/-- `MAX_SPOKEN_SECONDS = 90`. -/
def MAX_SPOKEN_SECONDS : Nat := 90

/-- `MAX_TRANSCRIPT_WORDS = int(MAX_SPOKEN_SECONDS * AVG_WORDS_PER_SECOND)`
with `AVG_WORDS_PER_SECOND = 2.5`; the product `90 * 2.5 = 225.0` is exact
in floating point, so the truncation to `int` yields 225. -/
def MAX_TRANSCRIPT_WORDS : Nat := MAX_SPOKEN_SECONDS * 5 / 2

-- ## The stream endpoint: `stream_transcript` (`GET /api/stream/{job_id}`)

/-- The external-call outcomes consumed by one run of the stream endpoint. -/
structure Oracle where
  /-- `get_client()` succeeds (API key configured); on `false` the endpoint
  raises before any status write and FastAPI answers 500. -/
  apiKey : Bool := true
  /-- The transcription call (lines 301-304), when attempted. -/
  transcription : CallResult := .ok []
  /-- The prompt-improvement call (lines 402-405). -/
  improvement : CallResult := .ok []
  /-- The items produced by `generate_content_stream` (lines 415-419). -/
  stream : List StreamItem := []
  /-- The title-generation call (lines 453-456). -/
  title : CallResult := .ok []
deriving Repr

/-- Truthiness of `jobs[job_id].get(key)` for an optional string field. -/
def optStrTruthy : Option Str → Bool
  | some s => !s.isEmpty
  | none => false

/-- Truthiness of `jobs[job_id].get("audio_bytes")`. -/
def optBytesTruthy : Option (List Nat) → Bool
  | some b => !b.isEmpty
  | none => false

/-- The lazy transcription step of the stream endpoint (lines 289-313):
returns the updated job, the `raw_input` local variable handed to the rest
of the pipeline, and the status writes performed. -/
def transcribe_phase (o : Oracle) (j : Job) : Job × Str × List Status :=
  if j.raw_input = str "<audio>" ∧ optBytesTruthy j.audio_bytes = true ∧
      optStrTruthy j.transcribed_audio = false then
    let j1 := { j with status := .transcribing }
    match o.transcription with
    | .ok t =>
      let t' := pyStrip t
      if t' ≠ [] then ({ j1 with transcribed_audio := some t' }, t', [.transcribing])
      else (j1, str "(Audio transcript empty)", [.transcribing])
    | .fail m =>
      ({ j1 with audio_transcription_error := some m },
       str "(Audio transcription failed; proceed with generic prompt)", [.transcribing])
  else (j, j.raw_input, [])

/-- How the streaming loop ended: the iterator was exhausted, the word cap
broke out of the loop, or pulling the next item raised. -/
inductive LoopOutcome
  | completed
  | broke
  | raised (message : Str)
deriving DecidableEq, Repr

/-- Result of the `for chunk in stream_iter` loop. -/
structure LoopResult where
  events : List Event
  job : Job
  outcome : LoopOutcome
  leftover : List StreamItem
deriving Repr

/-- The `for chunk in stream_iter` loop (lines 420-438).  `acc` is
`''.join(transcript_acc)`; empty chunk texts are skipped by the
`hasattr(chunk, 'text') and chunk.text` guard; when the accumulated word
count exceeds `cap` the transcript is cut to the first `cap` words, the
`truncated` key is set, the chunk event carries a `None` delta, and the
loop `break`s without consuming the remaining items. -/
def runLoop (cap : Nat) (j : Job) (acc : Str) : List StreamItem → LoopResult
  | [] => ⟨[], j, .completed, []⟩
  | .raise m :: rest => ⟨[], j, .raised m, rest⟩
  | .delta d :: rest =>
    if d = [] then runLoop cap j acc rest
    else
      let current := acc ++ d
      let words := pyWords current
      if cap < words.length then
        let current' := joinWords (words.take cap)
        let j' := { j with transcript := current', truncated := true }
        ⟨[Event.chunk none current' true], j', .broke, rest⟩
      else
        let j' := { j with transcript := current }
        let r := runLoop cap j' current rest
        ⟨Event.chunk (some d) current false :: r.events, r.job, r.outcome, r.leftover⟩

/-- Result of one run of `event_generator` (or of the whole endpoint):
the SSE events yielded, the job record afterwards, and the ordered list of
status writes. -/
structure RunResult where
  events : List Event
  job : Job
  trace : List Status
deriving Repr

/-- `event_generator` (lines 393-465): prompt improvement (status
`improving`, `meta` event), the streaming loop (status `streaming`), title
synthesis, then status `done` and the `done` event; any exception in the
`try` body is answered by a single terminal `error` event and status
`error`.  The prompt strings assembled at lines 317-391 only feed the
improvement call and are absorbed into its oracle outcome. -/
def event_generator (o : Oracle) (j : Job) : RunResult :=
  let j1 := { j with status := .improving }
  match o.improvement with
  | .fail m => ⟨[.error m], { j1 with status := .error }, [.improving, .error]⟩
  | .ok improved =>
    let j2 := { j1 with status := .streaming }
    let r := runLoop MAX_TRANSCRIPT_WORDS j2 [] o.stream
    match r.outcome with
    | .raised m =>
      ⟨.meta improved :: r.events ++ [.error m], { r.job with status := .error },
       [.improving, .streaming, .error]⟩
    | _ =>
      match o.title with
      | .fail m =>
        ⟨.meta improved :: r.events ++ [.error m], { r.job with status := .error },
         [.improving, .streaming, .error]⟩
      | .ok t =>
        let title := (pyStrip t).map fun c => if c = '\n' then ' ' else c
        ⟨.meta improved :: r.events ++ [.done title r.job.transcript r.job.truncated],
         { r.job with title := some title, status := .done },
         [.improving, .streaming, .done]⟩

/-- One request to `GET /api/stream/{job_id}` on an existing job:
`get_client()` (500 with no events if the API key is missing), the lazy
transcription phase, then `event_generator`.  The local `raw_input`
computed by the transcription phase only feeds the improvement call. -/
def stream_transcript (o : Oracle) (j : Job) : RunResult :=
  if o.apiKey = false then ⟨[], j, []⟩
  else
    let p := transcribe_phase o j
    let r := event_generator o p.1
    ⟨r.events, r.job, p.2.2 ++ r.trace⟩

-- Event / status classifiers used by the stated properties.

/-- `done` and `error` events are terminal. -/
def eventIsTerminal : Event → Bool
  | .done .. => true
  | .error _ => true
  | _ => false

/-- Chunk events. -/
def eventIsChunk : Event → Bool
  | .chunk .. => true
  | _ => false

/-- A chunk event whose `truncated` payload flag is set. -/
def eventIsTruncChunk : Event → Bool
  | .chunk _ _ true => true
  | _ => false

/-- The delta payload of a chunk event, when non-null. -/
def chunkDelta : Event → Option Str
  | .chunk d _ _ => d
  | _ => none

/-- The text of a stream item that the loop body would append: the
non-empty chunk texts. -/
def itemDeltaNE : StreamItem → Option Str
  | .delta d => if d = [] then none else some d
  | .raise _ => none

/-- `done` and `error` statuses are terminal. -/
def statusIsTerminal : Status → Bool
  | .done => true
  | .error => true
  | _ => false

/-- The forward status chain of the specification. -/
def statusChain : List Status := [.pending, .transcribing, .improving, .streaming, .done]

/-- The specified shape of an observed status sequence: a subsequence of
the forward chain, or such a subsequence (without `done`) that terminates
at `error`. -/
def okStatusSeq (l : List Status) : Bool :=
  isSubseqOf l statusChain ||
    (match l.getLast? with
     | some .error => isSubseqOf l.dropLast [Status.pending, .transcribing, .improving, .streaming]
     | _ => false)

/-- Scans the events front to back and checks that every chunk event is
preceded by some meta event. -/
def mbcAux : Bool → List Event → Bool
  | _, [] => true
  | seen, e :: rest =>
    match e with
    | .meta _ => mbcAux true rest
    | .chunk .. => seen && mbcAux seen rest
    | _ => mbcAux seen rest

/-- Every chunk event is preceded by a meta event. -/
def metaBeforeChunks (l : List Event) : Bool := mbcAux false l

-- ## WAV container (`_wrap_pcm_to_wav`, lines 513-520, via the `wave` module)

/-- Two little-endian bytes of a 16-bit unsigned value. -/
def u16le (n : Nat) : List Nat := [n % 256, n / 256 % 256]

/-- Four little-endian bytes of a 32-bit unsigned value. -/
def u32le (n : Nat) : List Nat :=
  [n % 256, n / 256 % 256, n / 65536 % 256, n / 16777216 % 256]

/-- ASCII bytes of a marker string. -/
def strBytes (s : String) : List Nat := s.toList.map Char.toNat

/-- The byte stream written by Python `wave` for a PCM file: RIFF/WAVE
header, `fmt ` chunk (format 1 = PCM), `data` chunk, then the frames. -/
def wrap_pcm_to_wav (pcm : List Nat) (sample_rate : Nat := 24000)
    (channels : Nat := 1) (sample_width : Nat := 2) : List Nat :=
  strBytes "RIFF" ++ u32le (36 + pcm.length) ++ strBytes "WAVE" ++
  strBytes "fmt " ++ u32le 16 ++ u16le 1 ++ u16le channels ++
  u32le sample_rate ++ u32le (sample_rate * channels * sample_width) ++
  u16le (channels * sample_width) ++ u16le (sample_width * 8) ++
  strBytes "data" ++ u32le pcm.length ++ pcm

-- ## Placeholder tone synthesis (`_generate_placeholder_audio`, lines 202-278)

/-- `struct.pack('<h', v)`: the two little-endian bytes of a 16-bit
two-complement value. -/
def packI16LE (v : Int) : List Nat :=
  let u := (v % 65536).toNat
  [u % 256, u / 256]

/-- One sample of the per-line sine tone (line 264, scaled to 16-bit at
line 266).  The source computes `int(32767 * 0.32 * env * sin(2*pi*f*t))`
in IEEE-754 double precision; exact floating point is outside this
embedding, and no stated property depends on sample values (only on the
sample count, two bytes per sample), so the value is abstracted to the
constant 0 here. -/
def toneSampleVal (freq total i : Nat) : Int := 0

/-- `int(duration * sample_rate)` for a line of `cc` characters:
`duration = min(4.0, 0.45 + cc * 0.03)` at 16 kHz, evaluated in exact
arithmetic (`0.45 * 16000 = 7200`, `0.03 * 16000 = 480`,
`4.0 * 16000 = 64000`); double rounding can shift this by at most one
sample, which no stated property observes. -/
def lineTotalSamples (cc : Nat) : Nat := min 64000 (7200 + 480 * cc)

/-- `int(0.18 * 16000) = 2880` silence samples appended after each line. -/
def GAP_SAMPLES : Nat := 2880

/-- The non-empty stripped lines of the transcript (line 209), falling back
to `[transcript.strip() or "(empty)"]` (line 211).  `splitlines` is
modelled as splitting at newline characters; the per-line `strip` removes
any carriage returns. -/
def placeholderLines (transcript : Str) : List Str :=
  if ((splitChar '\n' transcript).map pyStrip).filter (· ≠ []) = [] then
    [if pyStrip transcript ≠ [] then pyStrip transcript else str "(empty)"]
  else ((splitChar '\n' transcript).map pyStrip).filter (· ≠ [])

/-- `detect_speaker` (lines 229-232): 0 unless the lowercased line starts
with `speaker 2:`. -/
def detect_speaker (line : Str) : Nat :=
  if (str "speaker 1:").isPrefixOf (line.map Char.toLower) then 0
  else if (str "speaker 2:").isPrefixOf (line.map Char.toLower) then 1
  else 0

/-- `speaker_freq` (lines 218-226): base tone frequency for a speaker slot,
by gender code. -/
def speaker_freq (voices : List Str) (idx : Nat) : Nat :=
  let gender := voices.getD idx []
  if gender = str "M" then [150, 190].getD (if idx < 2 then idx else 0) 150
  else if gender = str "F" then [240, 280].getD (if idx < 2 then idx else 0) 240
  else [200, 260].getD (if idx < 2 then idx else 0) 200

/-- The spoken content of a line with its `Speaker N:` label removed
(lines 239-244). -/
def spokenContent (line : Str) : Str :=
  if (str "speaker 1:").isPrefixOf (line.map Char.toLower) then pyStrip (line.drop 10)
  else if (str "speaker 2:").isPrefixOf (line.map Char.toLower) then pyStrip (line.drop 10)
  else line

/-- The PCM bytes contributed by one line: its tone samples followed by the
0.18 s silence gap (lines 247-270). -/
def lineBlock (voices : List Str) (line : Str) : List Nat :=
  let spk := detect_speaker line
  let cc := max (spokenContent line).length 1
  let total := lineTotalSamples cc
  let freq := speaker_freq voices spk
  (((List.range total).map fun i => packI16LE (toneSampleVal freq total i)).flatten) ++
    ((List.replicate GAP_SAMPLES (packI16LE 0)).flatten)

/-- The concatenated PCM frames of the placeholder synthesis. -/
def placeholderPcm (transcript : Str) (voices : List Str) : List Nat :=
  ((placeholderLines transcript).map (lineBlock voices)).flatten

/-- `_generate_placeholder_audio`: the deterministic fallback WAV
(16 kHz, mono, 16-bit).  The `speakers` parameter is accepted but, as in
the source, never read. -/
def generate_placeholder_audio (transcript : Str) (speakers : Int)
    (voices : List Str) : List Nat :=
  wrap_pcm_to_wav (placeholderPcm transcript voices) 16000 1 2

-- ## Real TTS synthesis (`_generate_tts_audio`, lines 546-626)

/-- The container mime types passed through unchanged (line 620). -/
def containerMimes : List Str :=
  [str "audio/wav", str "audio/x-wav", str "audio/mpeg", str "audio/mp3",
   str "audio/ogg", str "audio/webm"]

/-- Post-processing of the TTS response audio (lines 619-626): a recognized
container mime passes through; anything else is treated as raw 24 kHz
16-bit mono PCM and wrapped in a WAV container. -/
def unwrapTTS (bytes : List Nat) (mime : Option Str) : List Nat × Str :=
  match mime with
  | some m => if m ∈ containerMimes then (bytes, m) else
      (wrap_pcm_to_wav bytes 24000 1 2, str "audio/wav")
  | none => (wrap_pcm_to_wav bytes 24000 1 2, str "audio/wav")

/-- The voice names configured for the synthesis call, together with the
number of `_pick_voice` random draws performed (lines 555-594): a stored
`voice_names` entry is used whenever it covers the slot, otherwise a fresh
draw from the gender pools is made.  At most two speaker slots are
configured (`range(min(speakers, 2))`). -/
def ttsVoiceSelection (speakers : Int) (voices : List Str)
    (voice_names : Option (List Str)) (rnd : Nat → Nat) : List Str × Nat :=
  if speakers ≤ 1 then
    match voice_names with
    | some vns =>
      if 1 ≤ vns.length then ([vns.getD 0 []], 0)
      else ([pick_voice (voices.getD 0 (str "M")) (rnd 0)], 1)
    | none => ([pick_voice (voices.getD 0 (str "M")) (rnd 0)], 1)
  else
    let k := (min speakers 2).toNat
    let sel := (List.range k).map fun idx =>
      match voice_names with
      | some vns =>
        if idx < vns.length then vns.getD idx []
        else pick_voice (voices.getD idx (str "M")) (rnd idx)
      | none => pick_voice (voices.getD idx (str "M")) (rnd idx)
    let draws := ((List.range k).filter fun idx =>
      match voice_names with
      | some vns => decide (vns.length ≤ idx)
      | none => true).length
    (sel, draws)

-- ## Audio retrieval (`get_audio`, `GET /api/audio/{job_id}`, lines 628-662)

/-- HTTP-level responses of the audio endpoint. -/
inductive Resp
  | ok (bytes : List Nat) (mime : Str)
  | badRequest (message : Str)
  | notFound
  | serverError (message : Str)
deriving DecidableEq, Repr

/-- Result of one audio request: the response, the in-memory record for
this job id afterwards (`jobs[job_id]`), and the cumulative number of
external speech-synthesis invocations. -/
structure AudioCall where
  resp : Resp
  mem : Option Job
  calls : Nat
deriving Repr

/-- Job after the placeholder fallback populated the audio cache
(lines 649-652). -/
def placStore (j : Job) (transcript : Str) : Job :=
  { j with audio_wav := some (generate_placeholder_audio transcript j.speakers j.voices),
           audio_mime := some (str "audio/wav"),
           audio_source := some (str "placeholder_fallback") }

/-- Job after a successful TTS call populated the audio cache
(lines 643-646); the stored `audio_source` string embeds the mime in the
source, which no property reads. -/
def ttsStore (j : Job) (bytes : List Nat) (mime : Option Str) : Job :=
  let r := unwrapTTS bytes mime
  { j with audio_wav := some r.1, audio_mime := some r.2,
           audio_source := some (str "tts") }

/-- The body of `get_audio` once the record `j` has been found (in memory
or lazily reloaded from disk).  `tts calls` is the outcome of the next
external synthesis invocation: `none` models an exception or a response
with no inline audio data, and an empty byte payload raises as well
(line 617); in every failure case the total placeholder fallback runs, so
the 500 branch at line 654 is unreachable in this embedding. -/
def get_audio_body (tts : Nat → Option (List Nat × Option Str)) (calls : Nat)
    (j : Job) : AudioCall :=
  if j.status ≠ .done then ⟨.badRequest (str "Job not completed"), some j, calls⟩
  else
    match j.audio_wav with
    | some b => ⟨.ok b (j.audio_mime.getD (str "audio/wav")), some j, calls⟩
    | none =>
      let transcript := if j.transcript = [] then str "(no transcript)" else j.transcript
      let j' :=
        match tts calls with
        | some (b, m) => if b = [] then placStore j transcript else ttsStore j b m
        | none => placStore j transcript
      ⟨.ok (j'.audio_wav.getD []) (j'.audio_mime.getD (str "audio/wav")), some j', calls + 1⟩

/-- `get_audio`: 404 unless the job is in memory or reloadable from its
persisted snapshot; then the cached-or-lazily-generated audio. -/
def get_audio (tts : Nat → Option (List Nat × Option Str)) (mem disk : Option Job)
    (calls : Nat) : AudioCall :=
  match mem with
  | some j => get_audio_body tts calls j
  | none =>
    match disk with
    | some dj => get_audio_body tts calls dj
    | none => ⟨.notFound, none, calls⟩

-- ## Status and full-record reads (lines 470-502)

/-- The summary returned by `GET /api/status/{job_id}`. -/
structure StatusSummary where
  status : Status
  title : Option Str
  length : Nat
  speakers : Int
  voices : List Str
deriving DecidableEq, Repr

/-- `get_status` (lines 470-481): answers only from the in-memory map; the
persisted snapshot (`disk`) is deliberately never consulted — there is no
`_load_job` call in this handler.  `none` models the 404 response. -/
def get_status (mem disk : Option Job) : Option StatusSummary :=
  mem.map fun j =>
    ⟨j.status, j.title, j.transcript.length, j.speakers, j.voices⟩

/-- The record returned by `GET /api/full/{job_id}` (lines 489-502). -/
structure FullRecord where
  status : Status
  title : Option Str
  transcript : Str
  speakers : Int
  voices : List Str
  saved : Bool
  category : Str
  voice_names : List Str
  theme : Option Str
  geo_location : Option Str
  language : Option Str
deriving DecidableEq, Repr

/-- Projection of a job record onto the full-record response. -/
def fullRecordOf (j : Job) : FullRecord :=
  ⟨j.status, j.title, j.transcript, j.speakers, j.voices, j.saved, j.category,
   j.voice_names, j.theme, j.geo_location, j.language⟩

/-- `get_full` (lines 483-502): lazily reloads the persisted snapshot when
the id is absent from memory; `none` models the 404 response. -/
def get_full (mem disk : Option Job) : Option FullRecord :=
  match mem with
  | some j => some (fullRecordOf j)
  | none => disk.map fullRecordOf

-- ## Persistence (`_persist_job`, lines 31-46)

/-- `PERSIST_FIELDS` (lines 31-34). -/
def PERSIST_FIELDS : List Str :=
  [str "status", str "title", str "transcript", str "speakers", str "voices",
   str "use_internet", str "saved", str "category", str "saved_at", str "theme",
   str "geo_location", str "voice_names", str "language", str "truncated"]

/-- The keys of the JSON blob written by `_persist_job` for a record whose
dict has key set `jobKeys`: the comprehension
`{k: j.get(k) for k in PERSIST_FIELDS if k in j}` followed by
`data["job_id"] = job_id` (line 42). -/
def persist_job_keys (jobKeys : List Str) : List Str :=
  (PERSIST_FIELDS.filter fun k => jobKeys.contains k) ++ [str "job_id"]

/-- The dict keys present on a freshly created (non-localisation, text
mode, no language) job: lines 144-199. -/
def creationKeys : List Str :=
  [str "status", str "transcript", str "title", str "use_internet",
   str "raw_input", str "category", str "speakers", str "voices", str "voice_names"]

-- ## Properties of the streaming loop

theorem pyWords_take_truncation (current : Str) (cap : Nat)
    (h : cap < (pyWords current).length) :
    pyWords (joinWords ((pyWords current).take cap)) = (pyWords current).take cap ∧
    ((pyWords current).take cap).length = cap := by
  constructor
  · exact pyWords_joinWords _ (fun w hw => pyWords_all_words current w (List.take_subset _ _ hw))
  · rw [List.length_take]
    exact min_eq_left (le_of_lt h)

theorem runLoop_truncates (cap : Nat) (ds : List Str) : ∀ (j : Job) (acc : Str),
    (pyWords acc).length ≤ cap →
    cap < (pyWords (acc ++ ds.flatten)).length →
    (pyWords (runLoop cap j acc (ds.map StreamItem.delta)).job.transcript).length = cap ∧
    (runLoop cap j acc (ds.map StreamItem.delta)).job.truncated = true ∧
    (∃ pre, (runLoop cap j acc (ds.map StreamItem.delta)).events =
        pre ++ [Event.chunk none (runLoop cap j acc (ds.map StreamItem.delta)).job.transcript true] ∧
      pre.all (fun e => !eventIsTruncChunk e) = true) ∧
    (runLoop cap j acc (ds.map StreamItem.delta)).outcome = .broke := by
  induction ds with
  | nil =>
    intro j acc hacc hgt
    simp only [List.flatten_nil, List.append_nil] at hgt
    exact absurd hgt (not_lt.mpr hacc)
  | cons d rest ih =>
    intro j acc hacc hgt
    simp only [List.map_cons]
    by_cases hd : d = []
    · subst hd
      simp only [runLoop, if_pos rfl]
      refine ih j acc hacc ?_
      simpa using hgt
    · simp only [runLoop, if_neg hd]
      by_cases htr : cap < (pyWords (acc ++ d)).length
      · rw [if_pos htr]
        obtain ⟨hw, hlen⟩ := pyWords_take_truncation (acc ++ d) cap htr
        refine ⟨by simpa [hw] using hlen, rfl, ⟨[], by simp⟩, rfl⟩
      · rw [if_neg htr]
        have hle : (pyWords (acc ++ d)).length ≤ cap := not_lt.mp htr
        have hgt' : cap < (pyWords ((acc ++ d) ++ rest.flatten)).length := by
          simpa [List.append_assoc] using hgt
        obtain ⟨h1, h2, ⟨pre, hpre, hall⟩, h4⟩ :=
          ih { j with transcript := acc ++ d } (acc ++ d) hle hgt'
        refine ⟨h1, h2, ?_, h4⟩
        refine ⟨Event.chunk (some d) (acc ++ d) false :: pre, ?_, ?_⟩
        · simp [hpre]
        · simpa [eventIsTruncChunk] using hall

/-- C1.  For every run of the streaming stage: whenever the cumulative word
count of the accumulated transcript exceeds `MAX_TRANSCRIPT_WORDS`
(90 s at 2.5 words/s, i.e. 225), the retained transcript holds exactly the
cap many words, the `truncated` flag on the job is set, the truncating
chunk event carries a null delta, no chunk event follows the truncating
one, and the loop breaks out without consuming the remaining deltas. -/
theorem truncation_enforced (j : Job) (ds : List Str)
    (h : MAX_TRANSCRIPT_WORDS < (pyWords ds.flatten).length) :
    MAX_TRANSCRIPT_WORDS = 225 ∧
    (pyWords (runLoop MAX_TRANSCRIPT_WORDS j [] (ds.map StreamItem.delta)).job.transcript).length
      = MAX_TRANSCRIPT_WORDS ∧
    (runLoop MAX_TRANSCRIPT_WORDS j [] (ds.map StreamItem.delta)).job.truncated = true ∧
    (∃ pre, (runLoop MAX_TRANSCRIPT_WORDS j [] (ds.map StreamItem.delta)).events =
        pre ++ [Event.chunk none
          (runLoop MAX_TRANSCRIPT_WORDS j [] (ds.map StreamItem.delta)).job.transcript true] ∧
      pre.all (fun e => !eventIsTruncChunk e) = true) ∧
    (runLoop MAX_TRANSCRIPT_WORDS j [] (ds.map StreamItem.delta)).outcome = .broke := by
  have hrun := runLoop_truncates MAX_TRANSCRIPT_WORDS ds j []
    (by simp [pyWords, wordsAux]) (by simpa using h)
  exact ⟨rfl, hrun.1, hrun.2.1, hrun.2.2.1, hrun.2.2.2⟩

/-- A stream of 226 one-letter words used to exercise the truncation path. -/
def bigDeltaW : Str := joinWords (List.replicate 226 (str "w"))

/-- Witness for C1: a concrete delta stream of 226 words exceeds the cap,
and the theorem applies to it. -/
theorem truncation_enforced_witness :
    MAX_TRANSCRIPT_WORDS < (pyWords (List.flatten [bigDeltaW])).length ∧
    (pyWords (runLoop MAX_TRANSCRIPT_WORDS defaultJob []
       ([bigDeltaW].map StreamItem.delta)).job.transcript).length = MAX_TRANSCRIPT_WORDS ∧
    (runLoop MAX_TRANSCRIPT_WORDS defaultJob []
       ([bigDeltaW].map StreamItem.delta)).job.truncated = true ∧
    (runLoop MAX_TRANSCRIPT_WORDS defaultJob []
       ([bigDeltaW].map StreamItem.delta)).outcome = .broke :=
  have h := truncation_enforced defaultJob [bigDeltaW] (by decide)
  ⟨by decide, h.2.1, h.2.2.1, h.2.2.2.2⟩

-- ## Event-stream shape lemmas for the loop

theorem runLoop_events_chunks (cap : Nat) (items : List StreamItem) :
    ∀ (j : Job) (acc : Str),
      (runLoop cap j acc items).events.all (fun e => eventIsChunk e && !eventIsTerminal e) = true := by
  induction items with
  | nil => intro j acc; rfl
  | cons it rest ih =>
    intro j acc
    cases it with
    | raise m => rfl
    | delta d =>
      by_cases hd : d = []
      · simp only [runLoop, if_pos hd]
        exact ih j acc
      · simp only [runLoop, if_neg hd]
        by_cases htr : cap < (pyWords (acc ++ d)).length
        · rw [if_pos htr]; rfl
        · rw [if_neg htr]
          simp only [List.all_cons]
          exact ih { j with transcript := acc ++ d } (acc ++ d)

theorem runLoop_deltas_subseq (cap : Nat) (items : List StreamItem) :
    ∀ (j : Job) (acc : Str),
      isSubseqOf ((runLoop cap j acc items).events.filterMap chunkDelta)
        (items.filterMap itemDeltaNE) = true := by
  induction items with
  | nil => intro j acc; rfl
  | cons it rest ih =>
    intro j acc
    cases it with
    | raise m => simp [runLoop, itemDeltaNE, isSubseqOf_nil]
    | delta d =>
      by_cases hd : d = []
      · simp only [runLoop, if_pos hd, List.filterMap_cons, itemDeltaNE, hd, if_pos rfl]
        exact ih j acc
      · simp only [runLoop, if_neg hd, List.filterMap_cons, itemDeltaNE, if_neg hd]
        by_cases htr : cap < (pyWords (acc ++ d)).length
        · rw [if_pos htr]
          exact isSubseqOf_nil _
        · rw [if_neg htr]
          simp only [List.filterMap_cons, chunkDelta]
          rw [isSubseqOf_cons_cons]
          exact ih { j with transcript := acc ++ d } (acc ++ d)

theorem mbcAux_true (l : List Event) : mbcAux true l = true := by
  induction l with
  | nil => rfl
  | cons e rest ih => cases e <;> simp [mbcAux, ih]

theorem events_shape_props (improved : Str) (cEvs : List Event) (term : Event)
    (hterm : eventIsTerminal term = true)
    (hnd : chunkDelta term = none)
    (hchunks : cEvs.all (fun e => eventIsChunk e && !eventIsTerminal e) = true) :
    ((Event.meta improved :: cEvs ++ [term]).filter eventIsTerminal).length ≤ 1 ∧
    ((Event.meta improved :: cEvs ++ [term]).dropLast.all fun e => !eventIsTerminal e) = true ∧
    metaBeforeChunks (Event.meta improved :: cEvs ++ [term]) = true ∧
    (Event.meta improved :: cEvs ++ [term]).filterMap chunkDelta = cEvs.filterMap chunkDelta := by
  have hnt : ∀ e ∈ cEvs, !eventIsTerminal e := by
    intro e he
    exact (Bool.and_elim_right (List.all_eq_true.mp hchunks e he))
  refine ⟨?_, ?_, ?_, ?_⟩
  · have h1 : cEvs.filter eventIsTerminal = [] := by
      rw [List.filter_eq_nil_iff]
      intro e he
      simpa using hnt e he
    have h2 : (Event.meta improved :: cEvs ++ [term]).filter eventIsTerminal = [term] := by
      simp [List.filter_cons, List.filter_append, h1, hterm,
        (show eventIsTerminal (Event.meta improved) = false from rfl)]
    rw [h2]
    simp
  · have : (Event.meta improved :: cEvs ++ [term]).dropLast = Event.meta improved :: cEvs := by
      rw [show Event.meta improved :: cEvs ++ [term] = (Event.meta improved :: cEvs) ++ [term] by simp]
      exact List.dropLast_concat
    rw [this]
    simp only [List.all_cons, Bool.and_eq_true]
    exact ⟨rfl, List.all_eq_true.mpr hnt⟩
  · exact mbcAux_true _
  · have ht : List.filterMap chunkDelta [term] = [] := by
      simp [List.filterMap_cons, hnd]
    simp [List.filterMap_cons, List.filterMap_append, ht, chunkDelta]

/-- C3.  Within a single run of the stream endpoint the emitted events are
strictly ordered: at most one terminal `done`/`error` event, the terminal
event (if any) is the last event of the run, every chunk event is preceded
by the meta event, and the chunk deltas are a subsequence of the upstream
chunk texts in generation order. -/
theorem event_stream_ordering (o : Oracle) (j : Job) :
    ((stream_transcript o j).events.filter eventIsTerminal).length ≤ 1 ∧
    ((stream_transcript o j).events.dropLast.all fun e => !eventIsTerminal e) = true ∧
    metaBeforeChunks (stream_transcript o j).events = true ∧
    isSubseqOf ((stream_transcript o j).events.filterMap chunkDelta)
      (o.stream.filterMap itemDeltaNE) = true := by
  have main : ∀ j' : Job,
      ((event_generator o j').events.filter eventIsTerminal).length ≤ 1 ∧
      ((event_generator o j').events.dropLast.all fun e => !eventIsTerminal e) = true ∧
      metaBeforeChunks (event_generator o j').events = true ∧
      isSubseqOf ((event_generator o j').events.filterMap chunkDelta)
        (o.stream.filterMap itemDeltaNE) = true := by
    intro j'
    unfold event_generator
    cases himp : o.improvement with
    | fail m =>
      refine ⟨by simp [eventIsTerminal], by simp, rfl, ?_⟩
      simp only [List.filterMap_cons, chunkDelta, List.filterMap_nil]
      exact isSubseqOf_nil _
    | ok improved =>
      have hch := runLoop_events_chunks MAX_TRANSCRIPT_WORDS o.stream
        { j' with status := .streaming } []
      have hsub := runLoop_deltas_subseq MAX_TRANSCRIPT_WORDS o.stream
        { j' with status := .streaming } []
      cases hout : (runLoop MAX_TRANSCRIPT_WORDS { j' with status := .streaming } [] o.stream).outcome with
      | raised m =>
        simp only [hout]
        obtain ⟨h1, h2, h3, h4⟩ := events_shape_props improved _ (.error m) rfl rfl hch
        exact ⟨h1, h2, h3, by rw [h4]; exact hsub⟩
      | completed =>
        simp only [hout]
        cases htit : o.title with
        | fail m =>
          obtain ⟨h1, h2, h3, h4⟩ := events_shape_props improved _ (.error m) rfl rfl hch
          exact ⟨h1, h2, h3, by rw [h4]; exact hsub⟩
        | ok t =>
          obtain ⟨h1, h2, h3, h4⟩ := events_shape_props improved _ (.done _ _ _) rfl rfl hch
          exact ⟨h1, h2, h3, by rw [h4]; exact hsub⟩
      | broke =>
        simp only [hout]
        cases htit : o.title with
        | fail m =>
          obtain ⟨h1, h2, h3, h4⟩ := events_shape_props improved _ (.error m) rfl rfl hch
          exact ⟨h1, h2, h3, by rw [h4]; exact hsub⟩
        | ok t =>
          obtain ⟨h1, h2, h3, h4⟩ := events_shape_props improved _ (.done _ _ _) rfl rfl hch
          exact ⟨h1, h2, h3, by rw [h4]; exact hsub⟩
  unfold stream_transcript
  by_cases hk : o.apiKey = false
  · rw [if_pos hk]
    exact ⟨by simp, rfl, rfl, isSubseqOf_nil _⟩
  · rw [if_neg hk]
    exact main (transcribe_phase o j).1

-- ## Status-trace shape

theorem transcribe_phase_trace (o : Oracle) (j : Job) :
    (transcribe_phase o j).2.2 = [] ∨ (transcribe_phase o j).2.2 = [.transcribing] := by
  unfold transcribe_phase
  split
  · cases o.transcription with
    | ok t =>
      by_cases h : pyStrip t ≠ []
      · right; simp [h]
      · right; simp [h]
    | fail m => right; rfl
  · left; rfl

theorem event_generator_trace (o : Oracle) (j : Job) :
    (event_generator o j).trace = [.improving, .error] ∨
    (event_generator o j).trace = [.improving, .streaming, .error] ∨
    (event_generator o j).trace = [.improving, .streaming, .done] := by
  unfold event_generator
  cases himp : o.improvement with
  | fail m => left; rfl
  | ok improved =>
    cases hout : (runLoop MAX_TRANSCRIPT_WORDS { j with status := Status.streaming } [] o.stream).outcome with
    | raised m => simp only [hout]; right; left; trivial
    | completed =>
      simp only [hout]
      cases htit : o.title with
      | fail m => right; left; trivial
      | ok t => right; right; trivial
    | broke =>
      simp only [hout]
      cases htit : o.title with
      | fail m => right; left; trivial
      | ok t => right; right; trivial

/-- C2 (amended).  Within any single run of the stream endpoint the status
writes, prefixed by the creation-time `pending`, form a subsequence of
`pending, transcribing, improving, streaming, done` or stop early at
`error`, and no status is written after `done` or `error` in that run. -/
theorem status_monotone_single_run (o : Oracle) (j : Job) :
    okStatusSeq (Status.pending :: (stream_transcript o j).trace) = true ∧
    ((stream_transcript o j).trace.dropLast.all fun s => !statusIsTerminal s) = true := by
  unfold stream_transcript
  by_cases hk : o.apiKey = false
  · rw [if_pos hk]
    exact ⟨rfl, rfl⟩
  · rw [if_neg hk]
    rcases transcribe_phase_trace o j with h1 | h1 <;>
      rcases event_generator_trace o (transcribe_phase o j).1 with h2 | h2 | h2 <;>
        simp only [h1, h2] <;> exact ⟨by decide, by decide⟩

-- ## Concrete scenario data shared by witnesses and counterexamples

/-- A fixed random oracle (always draws index 0). -/
def rndZero : Nat → Nat := fun _ => 0

/-- A plain text-mode creation request. -/
def reqCoffee : GenRequest := { prompt_mode := .text, text := str "Tell me about coffee" }

/-- The job stored for `reqCoffee`. -/
def jobCoffee : Job := (okJob (start_generation reqCoffee rndZero)).getD defaultJob

/-- An oracle under which every external call succeeds. -/
def oracleHappy : Oracle :=
  { improvement := .ok (str "improved prompt"),
    stream := [.delta (str "Hello world of coffee")],
    title := .ok (str "Coffee Talk") }

/-- C2 (counterexample).  The observed status sequence of one job across
its creation and two stream requests: the first run ends at `done`, and
the second run moves the job back to `improving`, so `done` is not
terminal across stream requests and the sequence is not a subsequence of
the specified forward chain. -/
theorem status_reset_after_done :
    okJob (start_generation reqCoffee rndZero) = some jobCoffee ∧
    (Status.pending :: ((stream_transcript oracleHappy jobCoffee).trace ++
        (stream_transcript oracleHappy (stream_transcript oracleHappy jobCoffee).job).trace)) =
      [.pending, .improving, .streaming, .done, .improving, .streaming, .done] ∧
    okStatusSeq (Status.pending :: ((stream_transcript oracleHappy jobCoffee).trace ++
        (stream_transcript oracleHappy (stream_transcript oracleHappy jobCoffee).job).trace)) = false := by
  refine ⟨by decide, by decide, by decide⟩

-- ## Placeholder audio facts

theorem placeholderLines_ne_nil (t : Str) : placeholderLines t ≠ [] := by
  unfold placeholderLines
  by_cases h : ((splitChar '\n' t).map pyStrip).filter (· ≠ []) = []
  · rw [if_pos h]
    simp
  · rw [if_neg h]
    exact h

theorem flatten_replicate_length (n : Nat) (x : List Nat) :
    ((List.replicate n x).flatten).length = n * x.length := by
  induction n with
  | zero => simp
  | succ k ih =>
    rw [List.replicate_succ, List.flatten_cons, List.length_append, ih, Nat.succ_mul]
    omega

theorem gap_flatten_length :
    ((List.replicate GAP_SAMPLES (packI16LE 0)).flatten : List Nat).length = 5760 := by
  rw [flatten_replicate_length]
  rfl

theorem lineBlock_ne_nil (v : List Str) (line : Str) : lineBlock v line ≠ [] := by
  unfold lineBlock
  intro hcontra
  have hlen := congrArg List.length hcontra
  rw [List.length_append, gap_flatten_length] at hlen
  simp at hlen

theorem placeholderPcm_ne_nil (t : Str) (v : List Str) : placeholderPcm t v ≠ [] := by
  unfold placeholderPcm
  rcases hl : placeholderLines t with _ | ⟨l0, rest⟩
  · exact absurd hl (placeholderLines_ne_nil t)
  · simp only [List.map_cons, List.flatten_cons]
    intro hcontra
    exact lineBlock_ne_nil v l0 (List.append_eq_nil.mp hcontra).1

theorem wrap_pcm_length (pcm : List Nat) (sr ch w : Nat) :
    (wrap_pcm_to_wav pcm sr ch w).length = 44 + pcm.length := by
  simp [wrap_pcm_to_wav, u32le, u16le, strBytes, List.length_append]
  omega

-- ## Audio endpoint behaviour on a completed job

theorem get_audio_body_done (tts : Nat → Option (List Nat × Option Str)) (calls : Nat)
    (j : Job) (h : j.status = .done) :
    ∃ jj w, (get_audio_body tts calls j).mem = some jj ∧ jj.status = .done ∧
      jj.audio_wav = some w ∧
      (get_audio_body tts calls j).resp = .ok w (jj.audio_mime.getD (str "audio/wav")) ∧
      (get_audio_body tts calls j).calls ≤ calls + 1 := by
  unfold get_audio_body
  rw [if_neg (by simp [h])]
  cases hw : j.audio_wav with
  | some b => exact ⟨j, b, rfl, h, hw, rfl, Nat.le_succ calls⟩
  | none =>
    cases ht : tts calls with
    | none =>
      dsimp only
      refine ⟨placStore j (if j.transcript = [] then str "(no transcript)" else j.transcript),
        generate_placeholder_audio
          (if j.transcript = [] then str "(no transcript)" else j.transcript)
          j.speakers j.voices, rfl, ?_, ?_, ?_, Nat.le_refl _⟩
      · simpa [placStore] using h
      · simp [placStore]
      · simp [placStore]
    | some bm =>
      obtain ⟨b, m⟩ := bm
      dsimp only
      by_cases hbe : b = []
      · rw [if_pos hbe]
        refine ⟨placStore j (if j.transcript = [] then str "(no transcript)" else j.transcript),
          generate_placeholder_audio
            (if j.transcript = [] then str "(no transcript)" else j.transcript)
            j.speakers j.voices, rfl, ?_, ?_, ?_, Nat.le_refl _⟩
        · simpa [placStore] using h
        · simp [placStore]
        · simp [placStore]
      · rw [if_neg hbe]
        refine ⟨ttsStore j b m, (unwrapTTS b m).1, rfl, ?_, ?_, ?_, Nat.le_refl _⟩
        · simpa [ttsStore] using h
        · simp [ttsStore]
        · simp [ttsStore]

/-- C4.  For a completed job, reading the audio twice yields identical
responses (in particular byte-identical audio), the in-memory record is
unchanged by the second read (the cached `audio_wav` is never
regenerated), and across both reads the external speech synthesis is
invoked at most once. -/
theorem audio_caching_idempotent (tts : Nat → Option (List Nat × Option Str))
    (disk : Option Job) (j : Job) (h : j.status = .done) :
    (∃ b m, (get_audio tts (some j) disk 0).resp = .ok b m) ∧
    (get_audio tts (get_audio tts (some j) disk 0).mem disk
        (get_audio tts (some j) disk 0).calls).resp = (get_audio tts (some j) disk 0).resp ∧
    (get_audio tts (get_audio tts (some j) disk 0).mem disk
        (get_audio tts (some j) disk 0).calls).mem = (get_audio tts (some j) disk 0).mem ∧
    (get_audio tts (get_audio tts (some j) disk 0).mem disk
        (get_audio tts (some j) disk 0).calls).calls ≤ 1 := by
  have h1 : get_audio tts (some j) disk 0 = get_audio_body tts 0 j := rfl
  obtain ⟨jj, w, hmem, hst, hww, hresp, hcalls⟩ := get_audio_body_done tts 0 j h
  rw [h1] at *
  have h2 : get_audio tts (get_audio_body tts 0 j).mem disk (get_audio_body tts 0 j).calls =
      get_audio_body tts (get_audio_body tts 0 j).calls jj := by
    rw [hmem]
    rfl
  have h3 : get_audio_body tts (get_audio_body tts 0 j).calls jj =
      ⟨.ok w (jj.audio_mime.getD (str "audio/wav")), some jj, (get_audio_body tts 0 j).calls⟩ := by
    unfold get_audio_body
    rw [if_neg (by simp [hst]), hww]
  refine ⟨⟨w, _, hresp⟩, ?_, ?_, ?_⟩
  · rw [h2, h3, hresp]
  · rw [h2, h3, hmem]
  · rw [h2, h3]
    simpa using hcalls

/-- A completed job with no cached audio, used to instantiate the audio
theorems. -/
def jobDone : Job := { defaultJob with status := .done, transcript := str "hi" }

/-- A speech-synthesis oracle that always fails. -/
def ttsNone : Nat → Option (List Nat × Option Str) := fun _ => none

/-- Witness for C4 at a concrete completed job and a failing synthesis
oracle. -/
theorem audio_caching_idempotent_witness :
    jobDone.status = .done ∧
    (get_audio ttsNone (get_audio ttsNone (some jobDone) none 0).mem none
        (get_audio ttsNone (some jobDone) none 0).calls).resp
      = (get_audio ttsNone (some jobDone) none 0).resp ∧
    (get_audio ttsNone (get_audio ttsNone (some jobDone) none 0).mem none
        (get_audio ttsNone (some jobDone) none 0).calls).mem
      = (get_audio ttsNone (some jobDone) none 0).mem ∧
    (get_audio ttsNone (get_audio ttsNone (some jobDone) none 0).mem none
        (get_audio ttsNone (some jobDone) none 0).calls).calls ≤ 1 :=
  have h := audio_caching_idempotent ttsNone none jobDone rfl
  ⟨rfl, h.2.1, h.2.2.1, h.2.2.2⟩

/-- C5.  For every job and every synthesis oracle: the audio endpoint
answers 400 (`Job not completed`) whenever the job is not `done`, and it
never answers 500.  Moreover, when the synthesis capability always fails,
the lazy first read of a `done` job (no cached audio yet) yields a 200
whose payload is the deterministic placeholder WAV — a 16 kHz mono WAV
container wrapping non-empty PCM data, over 44 bytes long. -/
theorem audio_notready_and_fallback (j : Job) (disk : Option Job) (calls : Nat)
    (tts : Nat → Option (List Nat × Option Str)) :
    (j.status ≠ .done →
      (get_audio tts (some j) disk calls).resp = .badRequest (str "Job not completed")) ∧
    ((∀ n, tts n = none) → j.audio_wav = none → j.status = .done →
      (get_audio tts (some j) disk calls).resp =
        .ok (generate_placeholder_audio
              (if j.transcript = [] then str "(no transcript)" else j.transcript)
              j.speakers j.voices)
          (str "audio/wav") ∧
      ∃ pcm, pcm ≠ [] ∧
        generate_placeholder_audio
            (if j.transcript = [] then str "(no transcript)" else j.transcript)
            j.speakers j.voices = wrap_pcm_to_wav pcm 16000 1 2 ∧
        44 < (wrap_pcm_to_wav pcm 16000 1 2).length) ∧
    (∀ m, (get_audio tts (some j) disk calls).resp ≠ .serverError m) := by
  have hmain : (∀ n, tts n = none) → j.audio_wav = none → j.status = .done →
      (get_audio tts (some j) disk calls).resp =
        .ok (generate_placeholder_audio
              (if j.transcript = [] then str "(no transcript)" else j.transcript)
              j.speakers j.voices)
          (str "audio/wav") := by
    intro htts hnc hd
    show (get_audio_body tts calls j).resp = _
    unfold get_audio_body
    rw [if_neg (by simp [hd]), hnc, htts calls]
    simp [placStore, generate_placeholder_audio]
  refine ⟨?_, ?_, ?_⟩
  · intro hnd
    show (get_audio_body tts calls j).resp = _
    unfold get_audio_body
    rw [if_pos hnd]
  · intro htts hnc hd
    refine ⟨hmain htts hnc hd, placeholderPcm (if j.transcript = [] then str "(no transcript)" else j.transcript) j.voices, placeholderPcm_ne_nil _ _, rfl, ?_⟩
    rw [wrap_pcm_length]
    have := placeholderPcm_ne_nil (if j.transcript = [] then str "(no transcript)" else j.transcript) j.voices
    have hpos := List.length_pos.mpr this
    omega
  · intro m
    by_cases hd : j.status = .done
    · obtain ⟨jj, w, hmem, hst, hww, hresp, hcalls⟩ := get_audio_body_done tts calls j hd
      have he : get_audio tts (some j) disk calls = get_audio_body tts calls j := rfl
      rw [he, hresp]
      simp
    · show (get_audio_body tts calls j).resp ≠ _
      unfold get_audio_body
      rw [if_pos hd]
      simp

/-- Witness for C5 at concrete jobs: a pending job is answered 400, a
completed job under the always-failing synthesis oracle still receives
the placeholder WAV, and neither read is a 500. -/
theorem audio_notready_and_fallback_witness :
    jobDone.status = .done ∧
    (get_audio ttsNone (some jobCoffee) none 0).resp = .badRequest (str "Job not completed") ∧
    (get_audio ttsNone (some jobDone) none 0).resp =
      .ok (generate_placeholder_audio
            (if jobDone.transcript = [] then str "(no transcript)" else jobDone.transcript)
            jobDone.speakers jobDone.voices)
        (str "audio/wav") ∧
    (get_audio ttsNone (some jobDone) none 0).resp ≠ .serverError (str "boom") :=
  have h := audio_notready_and_fallback jobDone none 0 ttsNone
  have hp := audio_notready_and_fallback jobCoffee none 0 ttsNone
  ⟨rfl, hp.1 (by decide), (h.2.1 (fun _ => rfl) rfl rfl).1, h.2.2 (str "boom")⟩

-- ## Creation validation and stored fields

theorem buildJob_raw_seed (req : GenRequest) (rnd : Nat → Nat)
    (hm : req.prompt_mode = .text) (ht : pyStrip req.text = [])
    (hc : req.category = str "localisation") :
    (buildJob req rnd).raw_input = locSeed (normTheme req.theme) (pyStrip req.geo_location) := by
  have hcat : normCategory req.category = str "localisation" := by
    rw [hc]
    simp [normCategory]
  unfold buildJob
  simp [hm, ht, hcat, apply_ite]

/-- C6.  Creation fails with `InvalidInput` (400) exactly when the request
is text mode with blank text — unless the category is `localisation` with a
non-blank location — or audio mode without an uploaded file; in the
localisation exception the stored job carries the deterministic seed prompt
built from theme and location. -/
theorem create_invalid_iff (req : GenRequest) (rnd : Nat → Nat) :
    (isErr (start_generation req rnd) = true ↔
      (req.prompt_mode = .text ∧ pyStrip req.text = [] ∧
        ¬(req.category = str "localisation" ∧ pyStrip req.geo_location ≠ [])) ∨
      (req.prompt_mode = .audio ∧ req.audio_file = none)) ∧
    (req.prompt_mode = .text → pyStrip req.text = [] →
      req.category = str "localisation" → pyStrip req.geo_location ≠ [] →
      okJob (start_generation req rnd) = some (buildJob req rnd) ∧
      (buildJob req rnd).raw_input = locSeed (normTheme req.theme) (pyStrip req.geo_location)) := by
  constructor
  · unfold start_generation
    by_cases h1 : req.prompt_mode = .text ∧ pyStrip req.text = [] ∧
        ¬(req.category = str "localisation" ∧ pyStrip req.geo_location ≠ [])
    · rw [if_pos h1]
      simp [isErr, h1]
    · rw [if_neg h1]
      by_cases h2 : req.prompt_mode = .audio ∧ req.audio_file = none
      · rw [if_pos h2]
        simp [isErr, h1, h2]
      · rw [if_neg h2]
        simp only [isErr, Bool.false_eq_true, false_iff]
        intro hcon
        rcases hcon with hA | hB
        · exact h1 hA
        · exact h2 hB
  · intro hm ht hc hg
    have h1 : ¬(req.prompt_mode = .text ∧ pyStrip req.text = [] ∧
        ¬(req.category = str "localisation" ∧ pyStrip req.geo_location ≠ [])) := by
      intro hcon
      exact hcon.2.2 ⟨hc, hg⟩
    have h2 : ¬(req.prompt_mode = .audio ∧ req.audio_file = none) := by
      intro hcon
      rw [hm] at hcon
      exact Mode.noConfusion hcon.1
    refine ⟨?_, buildJob_raw_seed req rnd hm ht hc⟩
    unfold start_generation
    rw [if_neg h1, if_neg h2]
    rfl

/-- The localisation scenario of the specification: blank text, category
`localisation`, location Kyoto, theme history. -/
def reqKyoto : GenRequest :=
  { prompt_mode := .text, text := [], category := str "localisation",
    geo_location := str "Kyoto", theme := str "history" }

/-- Witness for C6: the Kyoto scenario is accepted and seeds its prompt. -/
theorem create_invalid_iff_witness :
    isErr (start_generation reqKyoto rndZero) = false ∧
    okJob (start_generation reqKyoto rndZero) = some (buildJob reqKyoto rndZero) ∧
    (buildJob reqKyoto rndZero).raw_input
      = locSeed (normTheme reqKyoto.theme) (pyStrip reqKyoto.geo_location) :=
  have h := (create_invalid_iff reqKyoto rndZero).2 rfl rfl rfl (by decide)
  ⟨by decide, h.1, h.2⟩

/-- C7 (amended).  The stored `speakers` field is the Python `int` parse of
the effective speakers string when that parse succeeds — including values
below 1, such as `"0"` — and is coerced to 1 only on a parse failure
(`ValueError`). -/
theorem speakers_coercion (req : GenRequest) (rnd : Nat → Nat) (j : Job)
    (h : start_generation req rnd = .ok j) :
    j.speakers = (pyParseInt (effectiveSpeakers req)).getD 1 := by
  unfold start_generation at h
  split_ifs at h
  rw [← Except.ok.inj h]
  rfl

/-- A creation request whose speakers field parses to zero. -/
def reqZeroSpeakers : GenRequest :=
  { prompt_mode := .text, text := str "hi", speakers := str "0" }

/-- C7 (counterexample).  The request with `speakers = "0"` is accepted and
stores a `speakerCount` of 0, which is below 1 — `"0"` parses as an
integer, so the coercion to 1 never fires. -/
theorem speakers_zero_stored :
    (okJob (start_generation reqZeroSpeakers rndZero)).map Job.speakers = some 0 ∧
    ¬(1 ≤ (0 : Int)) :=
  ⟨by decide, by decide⟩

/-- A creation request whose speakers field fails to parse. -/
def reqBadSpeakers : GenRequest :=
  { prompt_mode := .text, text := str "hi", speakers := str "abc" }

/-- The job stored for `reqBadSpeakers`. -/
def jobBadSpeakers : Job := (okJob (start_generation reqBadSpeakers rndZero)).getD defaultJob

/-- Witness for C7: an unparsable speakers string is coerced to 1. -/
theorem speakers_coercion_witness :
    start_generation reqBadSpeakers rndZero = .ok jobBadSpeakers ∧
    jobBadSpeakers.speakers = 1 :=
  ⟨rfl, (speakers_coercion reqBadSpeakers rndZero jobBadSpeakers rfl).trans (by decide)⟩

-- ## Voice-name stability

theorem ttsVoiceSelection_stored (s : Int) (voices vns : List Str) (rnd' : Nat → Nat)
    (hs : 1 ≤ s) (hlen : vns.length = s.toNat) :
    ttsVoiceSelection s voices (some vns) rnd' = (vns.take (min s 2).toNat, 0) := by
  unfold ttsVoiceSelection
  by_cases h1 : s ≤ 1
  · have hs1 : s = 1 := le_antisymm h1 hs
    subst hs1
    rw [if_pos (le_refl (1 : Int))]
    dsimp only
    have hl : vns.length = 1 := by simpa using hlen
    rw [if_pos (by omega)]
    have hmin : (min (1 : Int) 2).toNat = 1 := rfl
    rw [hmin]
    cases vns with
    | nil => simp at hl
    | cons a t =>
      cases t with
      | nil => simp [List.getD]
      | cons b t' => simp at hl
  · rw [if_neg h1]
    have h2 : (2 : Int) ≤ s := by omega
    have hmin : (min s 2).toNat = 2 := by
      rw [min_eq_right h2]
      rfl
    have hge : 2 ≤ vns.length := by omega
    rw [hmin]
    have hr : List.range 2 = [0, 1] := by decide
    cases vns with
    | nil => simp at hge
    | cons a t =>
      cases t with
      | nil => simp at hge
      | cons b t' =>
        simp [hr, List.getD, List.take]

/-- C8 (amended).  The `voice_names` list drawn at creation has length equal
to the stored `speakers` value itself (uncapped — the cap to 2 speakers
exists only inside the synthesis stage), it is returned unchanged by the
full-record read, and for any job with at least one speaker the synthesis
stage configures exactly the first `min(speakers, 2)` stored names without
performing any fresh random draw. -/
theorem voice_names_uncapped_stable (req : GenRequest) (rnd : Nat → Nat) (j : Job)
    (h : start_generation req rnd = .ok j) :
    j.voice_names.length = j.speakers.toNat ∧
    (fullRecordOf j).voice_names = j.voice_names ∧
    ∀ rnd', 1 ≤ j.speakers →
      ttsVoiceSelection j.speakers j.voices (some j.voice_names) rnd' =
        (j.voice_names.take (min j.speakers 2).toNat, 0) := by
  unfold start_generation at h
  split_ifs at h
  rw [← Except.ok.inj h]
  refine ⟨?_, rfl, ?_⟩
  · show ((List.range ((pyParseInt (effectiveSpeakers req)).getD 1).toNat).map _).length = _
    simp
    rfl
  · intro rnd' hs
    refine ttsVoiceSelection_stored _ _ _ rnd' hs ?_
    show ((List.range ((pyParseInt (effectiveSpeakers req)).getD 1).toNat).map _).length = _
    simp
    rfl

/-- A creation request asking for three speakers. -/
def reqThreeSpeakers : GenRequest :=
  { prompt_mode := .text, text := str "hi", speakers := str "3", voices := str "M,F" }

/-- C8 (counterexample).  A job created with `speakers = "3"` stores three
voice names — the claimed cap of `min(speakerCount, 2) = 2` does not hold
at creation time. -/
theorem voice_names_exceed_cap :
    (okJob (start_generation reqThreeSpeakers rndZero)).map
        (fun j => j.voice_names.length) = some 3 ∧
    ¬(3 = min 3 2) :=
  ⟨by decide, by decide⟩

/-- A creation request asking for two speakers with explicit genders. -/
def reqTwoSpeakers : GenRequest :=
  { prompt_mode := .text, text := str "hi", speakers := str "2", voices := str "M,F" }

/-- The job stored for `reqTwoSpeakers`. -/
def jobTwoSpeakers : Job := (okJob (start_generation reqTwoSpeakers rndZero)).getD defaultJob

/-- Witness for C8 at a concrete two-speaker job. -/
theorem voice_names_uncapped_stable_witness :
    start_generation reqTwoSpeakers rndZero = .ok jobTwoSpeakers ∧
    jobTwoSpeakers.voice_names.length = jobTwoSpeakers.speakers.toNat ∧
    ttsVoiceSelection jobTwoSpeakers.speakers jobTwoSpeakers.voices
        (some jobTwoSpeakers.voice_names) rndZero =
      (jobTwoSpeakers.voice_names.take (min jobTwoSpeakers.speakers 2).toNat, 0) :=
  have h := voice_names_uncapped_stable reqTwoSpeakers rndZero jobTwoSpeakers rfl
  ⟨rfl, h.1, h.2.2 rndZero (by decide)⟩

-- ## Persisted snapshot keys

/-- C9 (amended).  A key appears in the persisted blob exactly when it is
one of the fourteen `PERSIST_FIELDS` present on the job record, or it is
the extra `job_id` key that `_persist_job` always adds. -/
theorem persisted_keys_characterization (ks : List Str) (k : Str) :
    k ∈ persist_job_keys ks ↔ (k ∈ PERSIST_FIELDS ∧ k ∈ ks) ∨ k = str "job_id" := by
  unfold persist_job_keys
  simp [List.mem_filter, List.mem_append, List.elem_iff]

/-- C9 (counterexample).  The blob written for a freshly completed job
contains the key `job_id`, which is not among the fourteen fields the
claim lists as exhaustive. -/
theorem persisted_blob_extra_field :
    (str "job_id") ∈ persist_job_keys creationKeys ∧
    (str "job_id") ∉ PERSIST_FIELDS :=
  ⟨by decide, by decide⟩

/-- Witness for C9: the characterization applied at a concrete key set,
showing the always-present `job_id` key. -/
theorem persisted_keys_characterization_witness :
    (str "job_id") ∈ persist_job_keys [] :=
  (persisted_keys_characterization [] (str "job_id")).mpr (Or.inr rfl)

-- ## Status reads never reload from disk

/-- C10.  For a job id absent from memory but present on disk with a
completed snapshot, the status endpoint answers 404 (it never calls
`_load_job`), while the full-record endpoint and the audio endpoint both
succeed by lazily reloading the snapshot. -/
theorem status_no_lazy_reload (dj : Job) (tts : Nat → Option (List Nat × Option Str))
    (calls : Nat) (h : dj.status = .done) :
    get_status none (some dj) = none ∧
    get_full none (some dj) = some (fullRecordOf dj) ∧
    (get_audio tts none (some dj) calls).resp ≠ .notFound ∧
    (∃ b m, (get_audio tts none (some dj) calls).resp = .ok b m) := by
  obtain ⟨jj, w, hmem, hst, hww, hresp, hcalls⟩ := get_audio_body_done tts calls dj h
  have he : get_audio tts none (some dj) calls = get_audio_body tts calls dj := rfl
  refine ⟨rfl, rfl, ?_, ?_⟩
  · rw [he, hresp]
    simp
  · exact ⟨w, _, by rw [he, hresp]⟩

/-- Witness for C10 at a concrete completed snapshot. -/
theorem status_no_lazy_reload_witness :
    jobDone.status = .done ∧
    get_status none (some jobDone) = none ∧
    get_full none (some jobDone) = some (fullRecordOf jobDone) ∧
    (get_audio ttsNone none (some jobDone) 0).resp ≠ .notFound :=
  have h := status_no_lazy_reload jobDone ttsNone 0 rfl
  ⟨rfl, h.1, h.2.1, h.2.2.1⟩
